import Mathlib

/-!
# Verification of the interpreter resolution & provisioning engine

A shallow embedding of the core of `pythondocker`: the version/encoding
detector (`version_detector.py`), the installation registry and acquisition
chain (`python_installer.py`, `alternative_interpreters.py`) and the
environment builder / execution adapter (`environment_manager.py`).

Python strings are modelled as `List Char`; Python string methods
(`lower`, `strip`, `split('.')`, `replace`, `startswith`, `in`) are given
faithful executable counterparts for the ASCII fragment the code uses.
Regular expressions appearing in the source are compiled by hand into
deterministic scanners; each scanner's doc comment records the pattern it
implements and the backtracking argument showing determinism is faithful.
Filesystem, subprocess and network effects are modelled by explicit world
records and action traces.
-/

set_option maxRecDepth 10000

/-! ## Python string primitives -/

/-- Python `\s` on the ASCII range: space, tab, newline, CR, VT, FF. -/
def isPySpace (c : Char) : Bool :=
  c == ' ' || c == '\t' || c == '\n' || c == '\r' || c == Char.ofNat 11 || c == Char.ofNat 12

/-- Python `\d` (ASCII decimal digit). -/
def isPyDigit (c : Char) : Bool :=
  '0' ≤ c && c ≤ '9'

/-- ASCII lower-casing of one character, as `str.lower` acts on the ASCII range. -/
def pyLowerChar (c : Char) : Char :=
  if 'A' ≤ c ∧ c ≤ 'Z' then Char.ofNat (c.toNat + 32) else c

/-- `str.lower` (ASCII fragment). -/
def pyLower (s : List Char) : List Char :=
  s.map pyLowerChar

/-- Drop the longest suffix of elements satisfying `p`. -/
def dropRightWhile (p : Char → Bool) (l : List Char) : List Char :=
  (l.reverse.dropWhile p).reverse

/-- `str.strip()`: remove leading and trailing whitespace. -/
def pyStrip (s : List Char) : List Char :=
  dropRightWhile isPySpace (s.dropWhile isPySpace)

/-- `str.startswith` on char lists.  (Defined by recursion on the needle so
that `pyStartsWith [] s` reduces even for a symbolic `s`.) -/
def pyStartsWith : List Char → List Char → Bool
  | [], _ => true
  | _ :: _, [] => false
  | a :: as, b :: bs => a == b && pyStartsWith as bs

/-- Python substring containment `needle in haystack`. -/
def containsSub (needle : List Char) : List Char → Bool
  | [] => needle.isEmpty
  | c :: rest => pyStartsWith needle (c :: rest) || containsSub needle rest

/-- `str.split('.')`: split on every dot, keeping empty pieces (`''.split('.') == ['']`). -/
def pySplitDot : List Char → List (List Char)
  | [] => [[]]
  | c :: rest =>
    if c = '.' then [] :: pySplitDot rest
    else
      match pySplitDot rest with
      | [] => [[c]]
      | p :: ps => (c :: p) :: ps

/-- Fuel-indexed body of `str.replace`: each step consumes at least one
character of the haystack, so `fuel = s.length` suffices and the zero-fuel
arm is never reached on the wrapper's calls.  (Structural recursion on the
fuel keeps the function kernel-computable.) -/
def pyReplaceFuel (old new : List Char) : Nat → List Char → List Char
  | 0, s => s
  | _ + 1, [] => []
  | fuel + 1, c :: rest =>
    if pyStartsWith old (c :: rest) ∧ old ≠ [] then
      new ++ pyReplaceFuel old new fuel ((c :: rest).drop old.length)
    else
      c :: pyReplaceFuel old new fuel rest

/-- `str.replace(old, new)` for a non-empty `old`: replace all non-overlapping
occurrences left to right. -/
def pyReplace (old new : List Char) (s : List Char) : List Char :=
  pyReplaceFuel old new s.length s

/-! ## Version detector (`version_detector.py`)

`PythonVersionDetector` reads the script into a list of lines (`readlines`,
each line keeping its trailing newline).  The file-decoding layer is I/O and
is not modelled; the detector proper is a pure function of those lines. -/

/-- Maximal-munch parse of `\d+(?:\.\d+)?` at the head of `s`, returning the
captured text.  The regex engine's greedy scan of this sub-pattern is
deterministic: `\d` and `.` are disjoint from each other and from what
follows, so no backtracking changes the result. -/
def parseVersionNum (s : List Char) : Option (List Char) :=
  let ds := s.takeWhile isPyDigit
  if ds.isEmpty then none
  else
    match s.dropWhile isPyDigit with
    | '.' :: rest2 =>
      let ds2 := rest2.takeWhile isPyDigit
      if ds2.isEmpty then some ds else some (ds ++ '.' :: ds2)
    | _ => some ds

/-- `SHEBANG_PATTERN = re.compile(r'^#!\s*/usr/bin/env\s+python(\d+(?:\.\d+)?)?')`,
applied with `re.match`.  Result: `none` if the line does not match;
`some none` if it matches with no version group; `some (some v)` with the
captured version otherwise. -/
def shebangEnvMatch (line : List Char) : Option (Option (List Char)) :=
  match line with
  | '#' :: '!' :: rest =>
    let r1 := rest.dropWhile isPySpace
    if pyStartsWith "/usr/bin/env".data r1 then
      match r1.drop 12 with
      | c :: _ =>
        if isPySpace c then
          let r3 := (r1.drop 12).dropWhile isPySpace
          if pyStartsWith "python".data r3 then
            some (parseVersionNum (r3.drop 6))
          else none
        else none
      | [] => none
    else none
  | _ => none

/-- `SHEBANG_PATTERN_ALT = re.compile(r'^#!\s*/usr/bin/python(\d+(?:\.\d+)?)?')`. -/
def shebangAltMatch (line : List Char) : Option (Option (List Char)) :=
  match line with
  | '#' :: '!' :: rest =>
    let r1 := rest.dropWhile isPySpace
    if pyStartsWith "/usr/bin/python".data r1 then
      some (parseVersionNum (r1.drop 15))
    else none
  | _ => none

/-- `PythonVersionDetector._check_shebang`. -/
def check_shebang (line : List Char) : Option (List Char) :=
  match (shebangEnvMatch line).orElse (fun _ => shebangAltMatch line) with
  | some g =>
    match g with
    | some version =>
      if pyStartsWith "2".data version then some "2.7".data
      else if pyStartsWith "3".data version then
        if version.drop 1 = [] then some "3.11".data else some version
      else none
    | none => some "3.11".data
  | none => none

/-- Case-insensitive match of `python\s*(\d+(?:\.\d+)?)` at the head of `s`
(the tail of `VERSION_COMMENT_PATTERN`).  Returns the captured group. -/
def pythonVersionAt (s : List Char) : Option (List Char) :=
  if pyLower (s.take 6) = "python".data then
    parseVersionNum ((s.drop 6).dropWhile isPySpace)
  else none

/-- Rightmost occurrence of `python\s*(\d+(?:\.\d+)?)` reachable from the
current position without crossing a newline (the `.*` of the comment pattern
is greedy and cannot match `\n`), returning its captured group. -/
def lastPythonVersion : List Char → Option (List Char)
  | [] => none
  | c :: rest =>
    let later := if c = '\n' then none else lastPythonVersion rest
    match later with
    | some g => some g
    | none => pythonVersionAt (c :: rest)

/-- `VERSION_COMMENT_PATTERN.search`: `re.search(r'#.*python\s*(\d+(?:\.\d+)?)', line, re.IGNORECASE)`.
The leftmost `#` from which the rest of the pattern can complete wins, and
within it the greedy `.*` selects the rightmost completing `python`. -/
def commentVersionSearch : List Char → Option (List Char)
  | [] => none
  | c :: rest =>
    if c = '#' then
      match lastPythonVersion rest with
      | some g => some g
      | none => commentVersionSearch rest
    else commentVersionSearch rest

/-- `PythonVersionDetector._check_version_comment`. -/
def check_version_comment (line : List Char) : Option (List Char) :=
  match commentVersionSearch line with
  | some version =>
    if pyStartsWith "2".data version then some "2.7".data
    else if pyStartsWith "3".data version then
      if version.length = 1 then some "3.11".data else some version
    else none
  | none => none

/-- Search for `print\s+[^(]`.  The pattern matches at a position iff `print`
is followed by a whitespace character and then any character other than `(`
(a second whitespace also satisfies `[^(]`, which is what backtracking over
`\s+` yields). -/
def searchPrintStmt : List Char → Bool
  | [] => false
  | c :: rest =>
    ((pyStartsWith "print".data (c :: rest)) &&
      (match (c :: rest).drop 5 with
       | c1 :: c2 :: _ => isPySpace c1 && c2 != '('
       | _ => false)) ||
    searchPrintStmt rest

/-- Search for `lit` followed by `\s*\(` (covers `xrange\s*\(`, `unicode\s*\(`,
`\.has_key\s*\(`, `raw_input\s*\(`). -/
def searchCallPattern (lit : List Char) : List Char → Bool
  | [] => false
  | c :: rest =>
    ((pyStartsWith lit (c :: rest)) &&
      (((c :: rest).drop lit.length).dropWhile isPySpace).head? == some '(') ||
    searchCallPattern lit rest

/-- Number of the nine `PYTHON2_SYNTAX` patterns that match the content
(`sum(1 for pattern in self.python2_patterns if pattern.search(content))`). -/
def python2_matches (content : List Char) : Nat :=
  (if searchPrintStmt content then 1 else 0) +
  (if containsSub ".iteritems()".data content then 1 else 0) +
  (if containsSub ".iterkeys()".data content then 1 else 0) +
  (if containsSub ".itervalues()".data content then 1 else 0) +
  (if searchCallPattern "xrange".data content then 1 else 0) +
  (if searchCallPattern "unicode".data content then 1 else 0) +
  (if containsSub "basestring".data content then 1 else 0) +
  (if searchCallPattern ".has_key".data content then 1 else 0) +
  (if searchCallPattern "raw_input".data content then 1 else 0)

/-- `PythonVersionDetector._check_syntax`. -/
def check_syntax (content : List Char) : Option (List Char) :=
  if 2 ≤ python2_matches content then some "2.7".data else none

/-- The shebang step of `detect_version`: the first line is checked only when
the line list is non-empty (`if lines:`). -/
def shebangOfLines (lines : List (List Char)) : Option (List Char) :=
  match lines with
  | [] => none
  | l0 :: _ => check_shebang l0

/-- `PythonVersionDetector.detect_version` on the decoded lines of the script
(each line as produced by `readlines`, trailing newline included).  Returns
`(version, method)`. -/
def detect_version (lines : List (List Char)) : List Char × List Char :=
  match shebangOfLines lines with
  | some v => (v, "shebang".data)
  | none =>
    match (lines.take 20).findSome? check_version_comment with
    | some v => (v, "comment".data)
    | none =>
      match check_syntax lines.flatten with
      | some v => (v, "syntax".data)
      | none => ("3.11".data, "default".data)

/-! ## `normalize_version` -/

/-- The keys iterated by `normalize_version`'s PyPy loop, in source order
`('pypy3.11', 'pypy3.10', 'pypy3.9', 'pypy2.7')`. -/
def normalizePypyKeys : List (List Char) :=
  ["pypy3.11".data, "pypy3.10".data, "pypy3.9".data, "pypy2.7".data]

/-- The loop body condition:
`key == vc or (vc in key and key.startswith(vc)) or key.startswith(vc)`. -/
def pypyKeyHit (vc key : List Char) : Bool :=
  key == vc || (containsSub vc key && pyStartsWith vc key) || pyStartsWith vc key

/-- First key the loop accepts, if any. -/
def findPypyKey (vc : List Char) : Option (List Char) :=
  normalizePypyKeys.find? (pypyKeyHit vc)

/-- The `v.startswith('pypy')` branch of `normalize_version` (`v` is the
lower-cased, stripped version). -/
def normalizePypy (v : List Char) : List Char :=
  let vc := v.filter (fun c => c != ' ')
  match findPypyKey vc with
  | some k => k
  | none =>
    if containsSub "3.11".data v || containsSub "311".data v then "pypy3.11".data
    else if containsSub "3.10".data v || containsSub "310".data v then "pypy3.10".data
    else if containsSub "3.9".data v || containsSub "39".data v then "pypy3.9".data
    else if containsSub "2".data v || containsSub "27".data v then "pypy2.7".data
    else "pypy3.11".data

/-- The `v.startswith('3')` branch: `parts = version.split('.')` (note: the
original, un-stripped `version`), returning `parts[0].parts[1]` when at least
two parts exist, else `'3.11'`. -/
def normalize3 (version : List Char) : List Char :=
  match pySplitDot version with
  | p0 :: p1 :: _ => p0 ++ '.' :: p1
  | _ => "3.11".data

/-- `PythonVersionDetector.normalize_version`. -/
def normalize_version (version : List Char) : List Char :=
  let v := pyStrip (pyLower version)
  if pyStartsWith "pypy".data v then normalizePypy v
  else if pyStartsWith "jython".data v then "jython2.7".data
  else if pyStartsWith "2".data v then "2.7".data
  else if pyStartsWith "3".data v then normalize3 version
  else "3.11".data

/-! ## Alternative-interpreter dispatch (`alternative_interpreters.py`) -/

/-- The two alternative runtime families. -/
inductive AltKind
  | pypy
  | jython
  deriving DecidableEq, Repr

/-- `alternative_interpreters.is_alternative_interpreter`:
`v = version.lower().strip()`; `'pypy'` prefix → PyPy, `'jython'` prefix →
Jython, otherwise `None`. -/
def is_alternative_interpreter (version : List Char) : Option AltKind :=
  let v := pyStrip (pyLower version)
  if pyStartsWith "pypy".data v then some AltKind.pypy
  else if pyStartsWith "jython".data v then some AltKind.jython
  else none

/-! ## Environment builder (`environment_manager.py`)

`create_environment` is embedded as a function of an explicit world (the
outcomes of its subprocess / installer effects) and an environment state
(whether the environment directory exists, whether its interpreter
executable exists, and what a `--version` probe of it reports).  The result
records the returned directory or raised error together with the number of
virtual-environment builds performed, the number of times the pre-existing
environment directory was destroyed (`shutil.rmtree` at the staleness
check), whether the partial directory was cleaned after a failed build, and
the final environment state. -/

deriving instance DecidableEq for Except

/-- `major, minor = python_version.split('.')[:2]; f"{major}.{minor}"` —
`none` models the `ValueError` the unpacking raises when the version has
fewer than two dot-separated parts. -/
def expectedMajorMinor (pv : List Char) : Option (List Char) :=
  match pySplitDot pv with
  | p0 :: p1 :: _ => some (p0 ++ '.' :: p1)
  | _ => none

/-- The guarded variant at `environment_manager.py:108`:
`expected_version = f"{parts[0]}.{parts[1]}" if len(parts) >= 2 else python_version`. -/
def expectedOrSelf (pv : List Char) : List Char :=
  match pySplitDot pv with
  | p0 :: p1 :: _ => p0 ++ '.' :: p1
  | _ => pv

/-- Observable state of one environment directory. -/
structure EnvState where
  /-- `env_dir.exists()` -/
  envExists : Bool
  /-- `self.get_python_executable(env_dir).exists()` -/
  exeExists : Bool
  /-- output of `[python_exe, '--version']` (stdout or stderr, stripped);
  `none` models the probe raising (timeout, missing binary, ...). -/
  probe : Option (List Char)
  deriving DecidableEq, Repr

/-- Outcomes of the effects `create_environment` performs. -/
structure EnvWorld where
  /-- result of `self.python_installer.install_python(...)`: `.error` models a
  raised `RuntimeError`, `.ok none` a falsy return, `.ok (some p)` a path. -/
  installResult : Except Unit (Option (List Char))
  /-- output of probing the installed interpreter (lines 100–121);
  `none` models the probe raising, which only prints a warning. -/
  installedProbe : Option (List Char)
  /-- whether venv/virtualenv creation (including the hand-built
  `_create_simple_env` fallback inside it) completes without raising. -/
  buildOk : Bool
  /-- whether the freshly built environment's executable exists. -/
  builtExeExists : Bool
  /-- what a `--version` probe of the freshly built environment reports. -/
  builtProbe : Option (List Char)
  deriving DecidableEq, Repr

/-- Errors `create_environment` can raise (all `RuntimeError` in the source,
distinguished here by message). -/
inductive CEErr
  /-- the error raised inside `install_python`, propagated (line 95–97). -/
  | installError
  /-- `"Не удалось установить Python …"` (line 94). -/
  | installNone
  /-- `"Версия установленного Python не совпадает! …"` (line 112). -/
  | installedVersionMismatch
  /-- `"Ошибка при создании окружения: …"` (line 179). -/
  | envBuildError
  deriving DecidableEq, Repr

/-- Result of one `create_environment` call. -/
structure CEResult where
  /-- returned environment directory name, or raised error. -/
  res : Except CEErr (List Char)
  /-- number of virtual-environment build attempts (venv/virtualenv creation). -/
  builds : Nat
  /-- number of `shutil.rmtree(env_dir)` calls destroying the stale environment
  (line 88). -/
  destroys : Nat
  /-- whether the partially built directory was removed after a build failure
  (lines 177–178). -/
  cleanedPartial : Bool
  /-- environment state when the call returns or raises. -/
  finalState : EnvState
  deriving DecidableEq, Repr

/-- `env_name = f"python-{python_version.replace('.', '-')}"`. -/
def envNameFor (pv : List Char) : List Char :=
  "python-".data ++ pv.map (fun c => if c == '.' then '-' else c)

/-- The build half of `create_environment` (lines 90–179): install the
interpreter, verify its version, create the virtual environment, cleaning the
partial directory on failure.  `destroyFirst` records whether the staleness
check just destroyed the old directory (`shutil.rmtree` at line 88).  The
post-build probe of lines 137–169 only prints warnings and is observable in
the final state's `probe` field, not in the result. -/
def buildPhase (w : EnvWorld) (envDir : List Char) (pv : List Char)
    (destroyFirst : Bool) (st : EnvState) : CEResult :=
  let d : Nat := if destroyFirst then 1 else 0
  let st1 : EnvState := if destroyFirst then ⟨false, false, none⟩ else st
  match w.installResult with
  | Except.error _ => ⟨Except.error CEErr.installError, 0, d, false, st1⟩
  | Except.ok none => ⟨Except.error CEErr.installNone, 0, d, false, st1⟩
  | Except.ok (some _) =>
    let mism : Bool :=
      match w.installedProbe with
      | some out => !(containsSub (expectedOrSelf pv) out)
      | none => false
    if mism then ⟨Except.error CEErr.installedVersionMismatch, 0, d, false, st1⟩
    else if w.buildOk then
      ⟨Except.ok envDir, 1, d, false, ⟨true, w.builtExeExists, w.builtProbe⟩⟩
    else
      ⟨Except.error CEErr.envBuildError, 1, d, true, ⟨false, false, none⟩⟩

/-- `EnvironmentManager.create_environment(python_version, env_name=None,
force_recreate, quiet, offline)` with the default generated environment name.
The Jython branch (line 45–47) delegates to `install_python` and returns the
synthetic directory. -/
def create_environment (w : EnvWorld) (st : EnvState) (pv : List Char)
    (force_recreate : Bool) (quiet : Bool) : CEResult :=
  if is_alternative_interpreter pv = some AltKind.jython then
    match w.installResult with
    | Except.error _ => ⟨Except.error CEErr.installError, 0, 0, false, st⟩
    | Except.ok _ => ⟨Except.ok "python-jython".data, 0, 0, false, st⟩
  else
    let envDir := envNameFor pv
    if st.envExists && !force_recreate then
      if st.exeExists then
        match st.probe, expectedMajorMinor pv with
        | some out, some exp =>
          if containsSub exp out then
            -- reuse: "Окружение … уже существует с правильной версией"
            ⟨Except.ok envDir, 0, 0, false, st⟩
          else
            -- mismatch ⇒ force_recreate := True;
            -- `if force_recreate and not quiet: … shutil.rmtree(env_dir)`
            buildPhase w envDir pv (!quiet) st
        | _, _ =>
          -- probe raised (or the unpacking of split('.')[:2] did)
          buildPhase w envDir pv (!quiet) st
      else
        -- executable missing: force_recreate stays False, no destroy
        buildPhase w envDir pv false st
    else
      -- directory absent, or force_recreate passed in (the destroy block is
      -- guarded by `env_dir.exists() and not force_recreate`, so an explicit
      -- force_recreate never triggers it)
      buildPhase w envDir pv false st

/-! ## Acquisition chain (`python_installer.py`, `alternative_interpreters.py`)

Effects are recorded in an action trace: quick subprocess probes, local
lookups, and the two kinds of network/unbounded work (downloads and
`pyenv install`).  Pure filesystem existence tests produce no action. -/

/-- One observable effect of the installer. -/
inductive Act
  /-- a quick `--version` subprocess probe. -/
  | versionProbe
  /-- system discovery: `py` launcher / `where` / `which` subprocess lookups. -/
  | whichLookup
  /-- querying pyenv for its installed versions. -/
  | pyenvQuery
  /-- `pyenv install` (network, unbounded duration). -/
  | pyenvInstall
  /-- `java -version` probe. -/
  | javaProbe
  /-- a network download attempt (`urllib.request.urlretrieve`). -/
  | download
  /-- copying an archive out of the shared content cache. -/
  | cacheCopy
  /-- extracting an archive. -/
  | extractArchive
  deriving DecidableEq, Repr

/-- Host platform as classified by `platform.system()`. -/
inductive Plat
  | windows
  | linux
  | macos
  | other
  deriving DecidableEq, Repr

/-- Outcomes of the installer's filesystem, subprocess and network effects. -/
structure IWorld where
  plat : Plat
  /-- Linux machine reports `aarch64`/`arm64`. -/
  linuxAarch64 : Bool
  /-- macOS machine reports an `arm` architecture. -/
  macArm : Bool
  /-- `get_python_path` filesystem search result for a PyPy version. -/
  pypyPath : Option (List Char)
  /-- `get_python_path` filesystem result for a standard version directory. -/
  stdPath : Option (List Char)
  /-- output of probing the installed interpreter with `--version`;
  `none` models the probe raising. -/
  probeOut : Option (List Char)
  /-- `java -version` succeeds. -/
  javaAvail : Bool
  /-- the Jython standalone jar already sits in the install directory. -/
  jarExists : Bool
  /-- the shared content cache holds the Jython jar. -/
  cacheHasJython : Bool
  /-- downloading the Jython jar succeeds. -/
  jythonDownloadOk : Bool
  /-- `_find_system_python` discovery result. -/
  systemPython : Option (List Char)
  /-- output of re-probing the discovered system interpreter; `none` raises. -/
  sysProbeOut : Option (List Char)
  pyenvAvailable : Bool
  /-- pyenv reports the target version among its installed versions. -/
  pyenvInstalled : Bool
  /-- path pyenv reports for the target version. -/
  pyenvPath : Option (List Char)
  /-- `pyenv install` succeeds. -/
  pyenvInstallOk : Bool
  /-- `download_and_install_python` (direct python.org acquisition) succeeds. -/
  downloadInstallOk : Bool
  /-- the shared content cache holds the PyPy archive. -/
  pypyCached : Bool
  /-- downloading the PyPy archive succeeds. -/
  pypyDownloadOk : Bool
  /-- executable found inside the extracted PyPy tree (path relative to it). -/
  pypyExeFound : Option (List Char)
  deriving DecidableEq, Repr

/-- Path of the Jython standalone jar below the install directory. -/
def jythonJarName : List Char :=
  "jython2.7/jython-standalone-2.7.4.jar".data

/-- `alternative_interpreters.install_jython`: probe Java, then return the
existing jar, else copy from the cache, else download (deleting the partial
file and returning `None` on failure). -/
def install_jython (w : IWorld) : Option (List Char) × List Act :=
  if !w.javaAvail then (none, [Act.javaProbe])
  else if w.jarExists then (some jythonJarName, [Act.javaProbe])
  else if w.cacheHasJython then (some jythonJarName, [Act.javaProbe, Act.cacheCopy])
  else if w.jythonDownloadOk then (some jythonJarName, [Act.javaProbe, Act.download])
  else (none, [Act.javaProbe, Act.download])

/-- `PythonInstaller.get_python_path`: pure filesystem lookups for CPython and
PyPy; for Jython it delegates to `install_jython`. -/
def get_python_path (w : IWorld) (version : List Char) : Option (List Char) × List Act :=
  match is_alternative_interpreter version with
  | some AltKind.pypy => (w.pypyPath, [])
  | some AltKind.jython => install_jython w
  | none => (w.stdPath, [])

/-- The probe-output comparison of `python_installed` (lines 219–228):
for PyPy, `version.replace('pypy', '')` or the full version must occur in the
output; otherwise the full version or its `major.minor` part must. -/
def versionMatches (version out : List Char) (pypy : Bool) : Bool :=
  if pypy then
    containsSub (pyReplace "pypy".data [] version) out || containsSub version out
  else
    match pySplitDot version with
    | p0 :: p1 :: _ => containsSub version out || containsSub (p0 ++ '.' :: p1) out
    | _ => containsSub version out

/-- `PythonInstaller.python_installed`. -/
def python_installed (w : IWorld) (version : List Char) : Bool × List Act :=
  match is_alternative_interpreter version with
  | some AltKind.jython =>
    let r := install_jython w
    (r.1.isSome, r.2)
  | alt =>
    match get_python_path w version with
    | (none, t) => (false, t)
    | (some p, t) =>
      if ".jar".data.isSuffixOf p then (true, t)
      else
        match w.probeOut with
        | none => (false, t ++ [Act.versionProbe])
        | some out =>
          (versionMatches version out (alt == some AltKind.pypy), t ++ [Act.versionProbe])

/-- `PythonInstaller._find_system_python`.  The unguarded
`major, minor = version.split('.')[:2]` raises `ValueError` for versions with
fewer than two dot-separated parts (`.error`); otherwise discovery runs its
launcher/`which` lookups and reports the candidate. -/
def find_system_python (w : IWorld) (version : List Char) :
    Except Unit (Option (List Char)) × List Act :=
  match pySplitDot version with
  | _ :: _ :: _ => (Except.ok w.systemPython, [Act.whichLookup])
  | _ => (Except.error (), [])

/-- `PythonInstaller._normalize_version_for_pyenv`. -/
def normalize_for_pyenv (version : List Char) : Option (List Char) :=
  match pySplitDot version with
  | p0 :: p1 :: rest =>
    if p0 == "2".data && p1 == "7".data then some "2.7.18".data
    else if rest.isEmpty then none
    else some version
  | _ => none

/-- Errors `install_python` raises, distinguished by message. -/
inductive InstErr
  /-- `"PyPy … не установлен. Режим --offline: …"` (line 575). -/
  | pypyOffline
  /-- `"PyPy … не удалось установить."` (line 579). -/
  | pypyInstallFailed
  /-- `"Jython не установлен. Режим --offline: …"` (line 588). -/
  | jythonOffline
  /-- `"Jython не удалось установить."` (line 592). -/
  | jythonInstallFailed
  /-- `"Python … не найден. Режим --offline: используйте только уже
  установленные версии."` (line 677). -/
  | offlineNotFound
  /-- the final `"Python … не найден и не может быть установлен"` (line 680). -/
  | notFound
  /-- `ValueError` escaping from `_find_system_python`'s unpacking. -/
  | valueError
  deriving DecidableEq, Repr

/-- Method 4 of `install_python` plus the final error: the direct python.org
acquisition is attempted only outside offline mode (`if not offline and
self.download_and_install_python(...)`); exhaustion raises the
offline-specific message in offline mode and the full remediation message
otherwise. -/
def installStepDownload (w : IWorld) (version : List Char) (offline : Bool)
    (acc : List Act) : Except InstErr (List Char) × List Act :=
  if offline then (Except.error InstErr.offlineNotFound, acc)
  else if w.downloadInstallOk then
    match get_python_path w version with
    | (some p, t) => (Except.ok p, acc ++ [Act.download] ++ t)
    | (none, t) => (Except.error InstErr.notFound, acc ++ [Act.download] ++ t)
  else (Except.error InstErr.notFound, acc ++ [Act.download])

/-- Methods 3 and 3b of `install_python`: the pyenv integration.  Outside
offline mode a missing version triggers `pyenv install`; in offline mode only
the already-installed query runs. -/
def installStepPyenv (w : IWorld) (version : List Char) (use_pyenv offline : Bool)
    (acc : List Act) : Except InstErr (List Char) × List Act :=
  if use_pyenv && !offline then
    if w.pyenvAvailable then
      match normalize_for_pyenv version with
      | some _ =>
        if w.pyenvInstalled then
          match w.pyenvPath with
          | some p => (Except.ok p, acc ++ [Act.pyenvQuery])
          | none => installStepDownload w version offline (acc ++ [Act.pyenvQuery])
        else if w.pyenvInstallOk then
          match w.pyenvPath with
          | some p => (Except.ok p, acc ++ [Act.pyenvQuery, Act.pyenvInstall])
          | none => installStepDownload w version offline (acc ++ [Act.pyenvQuery, Act.pyenvInstall])
        else installStepDownload w version offline (acc ++ [Act.pyenvQuery, Act.pyenvInstall])
      | none => installStepDownload w version offline acc
    else installStepDownload w version offline acc
  else if use_pyenv && offline then
    if w.pyenvAvailable then
      match normalize_for_pyenv version with
      | some _ =>
        if w.pyenvInstalled then
          match w.pyenvPath with
          | some p => (Except.ok p, acc ++ [Act.pyenvQuery])
          | none => installStepDownload w version offline (acc ++ [Act.pyenvQuery])
        else installStepDownload w version offline (acc ++ [Act.pyenvQuery])
      | none => installStepDownload w version offline acc
    else installStepDownload w version offline acc
  else installStepDownload w version offline acc

/-- Method 2 of `install_python`: system discovery, with the re-probe of
lines 600–620; a mismatch or probe failure falls through to pyenv. -/
def installStepSystem (w : IWorld) (version : List Char) (use_pyenv offline : Bool)
    (acc : List Act) : Except InstErr (List Char) × List Act :=
  match find_system_python w version with
  | (Except.error _, t) => (Except.error InstErr.valueError, acc ++ t)
  | (Except.ok none, t) => installStepPyenv w version use_pyenv offline (acc ++ t)
  | (Except.ok (some sp), t) =>
    match w.sysProbeOut, expectedMajorMinor version with
    | some out, some exp =>
      if containsSub exp out then (Except.ok sp, acc ++ t ++ [Act.versionProbe])
      else installStepPyenv w version use_pyenv offline (acc ++ t ++ [Act.versionProbe])
    | _, _ => installStepPyenv w version use_pyenv offline (acc ++ t ++ [Act.versionProbe])

/-! ### `install_pypy` and the archive-path expression

`alternative_interpreters.install_pypy` builds its archive path with
`version_dir / "pypy_archive" + (".zip" if url.endswith('.zip') else ".tar.bz2")`.
Python parses this as `(version_dir / "pypy_archive") + "..."`, and a
`pathlib.Path` does not support `+`, so the expression raises `TypeError`.
The operators are embedded as partial operations on tagged Python values so
the model computes exactly what the interpreter computes. -/

/-- A Python value of the two types the expression involves. -/
inductive PyVal
  | vpath (p : List Char)
  | vstr (s : List Char)
  deriving DecidableEq, Repr

/-- `pathlib` `/` operator: defined on `Path / str`, a `TypeError` otherwise. -/
def pyDiv : PyVal → PyVal → Except Unit PyVal
  | PyVal.vpath p, PyVal.vstr s => Except.ok (PyVal.vpath (p ++ '/' :: s))
  | _, _ => Except.error ()

/-- Python `+`: defined on `str + str`; `Path + str` raises `TypeError`. -/
def pyAddVal : PyVal → PyVal → Except Unit PyVal
  | PyVal.vstr a, PyVal.vstr b => Except.ok (PyVal.vstr (a ++ b))
  | _, _ => Except.error ()

/-- The `PYPY_RELEASES` table in dict insertion order. -/
def PYPY_RELEASES : List (List Char × List Char) :=
  [("pypy3.11".data, "pypy3.11-v7.3.20".data),
   ("pypy3.10".data, "pypy3.10-v7.3.19".data),
   ("pypy2.7".data, "pypy2.7-v7.3.20".data),
   ("pypy3.9".data, "pypy3.9-v7.3.16".data)]

/-- `v = version.lower().replace(' ', '')`, prefixed with `pypy` if needed —
shared by `get_pypy_url`, `install_pypy` and `get_python_path`. -/
def pypyNormName (version : List Char) : List Char :=
  let v := (pyLower version).filter (fun c => c != ' ')
  if pyStartsWith "pypy".data v then v else "pypy".data ++ v

/-- Key-resolution loop of `get_pypy_url`: exact key, else the first key
related by prefix in either direction, else `None`. -/
def pypyReleaseKey (v : List Char) : Option (List Char) :=
  if (PYPY_RELEASES.map Prod.fst).contains v then some v
  else (PYPY_RELEASES.map Prod.fst).find? (fun key => pyStartsWith key v || pyStartsWith v key)

/-- `alternative_interpreters.get_pypy_url`. -/
def get_pypy_url (w : IWorld) (version : List Char) : Option (List Char) :=
  match pypyReleaseKey (pypyNormName version) with
  | none => none
  | some key =>
    match (PYPY_RELEASES.find? (fun kv => kv.1 == key)).map Prod.snd with
    | none => none
    | some name =>
      let base := "https://downloads.python.org/pypy/".data
      match w.plat with
      | Plat.windows => some (base ++ name ++ "-win64.zip".data)
      | Plat.linux =>
        if w.linuxAarch64 then some (base ++ name ++ "-aarch64.tar.bz2".data)
        else some (base ++ name ++ "-linux64.tar.bz2".data)
      | Plat.macos =>
        if w.macArm then some (base ++ name ++ "-macos_arm64.tar.bz2".data)
        else some (base ++ name ++ "-macos_x86_64.tar.bz2".data)
      | Plat.other => none

/-- The rest of `install_pypy`'s `try` block after the archive path has been
computed: cache copy or download, extraction, locating and moving the
executable.  (Unreachable in the source: computing the archive path raises
first.) -/
def installPypyFrom (w : IWorld) (vdir : List Char) (_archive : PyVal) :
    Option (List Char) × List Act :=
  if w.pypyCached then
    match w.pypyExeFound with
    | none => (none, [Act.cacheCopy, Act.extractArchive])
    | some rel => (some (vdir ++ "/pypy/".data ++ rel), [Act.cacheCopy, Act.extractArchive])
  else if !w.pypyDownloadOk then (none, [Act.download])
  else
    match w.pypyExeFound with
    | none => (none, [Act.download, Act.extractArchive])
    | some rel => (some (vdir ++ "/pypy/".data ++ rel), [Act.download, Act.extractArchive])

/-- `alternative_interpreters.install_pypy`.  The whole body after the URL
computation is wrapped in `try … except Exception: return None`; the first
statement of the `try` block evaluates
`version_dir / "pypy_archive" + ext`, whose `Path + str` raises `TypeError`,
so the handler converts every invocation into `None` before any cache
lookup, download or extraction. -/
def install_pypy (w : IWorld) (version : List Char) : Option (List Char) × List Act :=
  match get_pypy_url w version with
  | none => (none, [])
  | some url =>
    let ext := if ".zip".data.isSuffixOf url then ".zip".data else ".tar.bz2".data
    let vdir := pypyNormName version
    match (pyDiv (PyVal.vpath vdir) (PyVal.vstr "pypy_archive".data)).bind
        (fun d => pyAddVal d (PyVal.vstr ext)) with
    | Except.error _ => (none, [])
    | Except.ok archive => installPypyFrom w vdir archive

/-- The alternative-interpreter dispatch of `install_python` (lines 568–594),
falling through to system discovery for mainstream versions. -/
def installStepAlt (w : IWorld) (version : List Char) (use_pyenv offline : Bool)
    (acc : List Act) : Except InstErr (List Char) × List Act :=
  match is_alternative_interpreter version with
  | some AltKind.pypy =>
    if offline then
      match get_python_path w version with
      | (some p, t) => (Except.ok p, acc ++ t)
      | (none, t) => (Except.error InstErr.pypyOffline, acc ++ t)
    else
      match install_pypy w version with
      | (some p, t) => (Except.ok p, acc ++ t)
      | (none, t) => (Except.error InstErr.pypyInstallFailed, acc ++ t)
  | some AltKind.jython =>
    if offline then
      match get_python_path w version with
      | (some p, t) => (Except.ok p, acc ++ t)
      | (none, t) => (Except.error InstErr.jythonOffline, acc ++ t)
    else
      match install_jython w with
      | (some p, t) => (Except.ok p, acc ++ t)
      | (none, t) => (Except.error InstErr.jythonInstallFailed, acc ++ t)
  | none => installStepSystem w version use_pyenv offline acc

/-- `PythonInstaller.install_python`: method 1 (already installed) returns the
registered path; a truthy installed-check with a missing path, like a falsy
one, falls into the alternative/system/pyenv/download chain. -/
def install_python (w : IWorld) (version : List Char) (use_pyenv offline : Bool) :
    Except InstErr (List Char) × List Act :=
  match python_installed w version with
  | (true, t1) =>
    match get_python_path w version with
    | (some p, t1b) => (Except.ok p, t1 ++ t1b)
    | (none, t1b) => installStepAlt w version use_pyenv offline (t1 ++ t1b)
  | (false, t1) => installStepAlt w version use_pyenv offline t1

/-! ## Archive extraction and installer cleanup (`python_installer.py`) -/

/-- Archive format as dispatched on by `_extract_python`'s suffix tests. -/
inductive ArchiveKind
  | zip
  | targz
  | other
  deriving DecidableEq, Repr

/-- How the extraction call itself ends. -/
inductive ExtractOutcome
  /-- extraction completes. -/
  | ok
  /-- `zipfile.BadZipFile` (corrupt or mislabelled archive). -/
  | badZip
  /-- any other exception. -/
  | err
  deriving DecidableEq, Repr

/-- Result of `_extract_python`: the boolean return value and whether the
archive file was removed (`archive_path.unlink()`). -/
structure ExtractResult where
  success : Bool
  archiveDeleted : Bool
  deriving DecidableEq, Repr

/-- `PythonInstaller._extract_python`: the `unlink` sits after the extraction
inside the `try`, so it runs only when extraction succeeded; the
`except zipfile.BadZipFile` and `except Exception` handlers return `False`
without touching the file, as does the unknown-format branch. -/
def extract_python (kind : ArchiveKind) (outcome : ExtractOutcome) : ExtractResult :=
  match kind with
  | ArchiveKind.other => ⟨false, false⟩
  | _ =>
    match outcome with
    | ExtractOutcome.ok => ⟨true, true⟩
    | ExtractOutcome.badZip => ⟨false, false⟩
    | ExtractOutcome.err => ⟨false, false⟩

/-- Phases at which `_install_msi_python` can stop. -/
inductive MsiPhase
  /-- download raises HTTP 404 (first `try`, before the `finally`). -/
  | downloadHTTP404
  /-- download raises another error (first `try`). -/
  | downloadFailed
  /-- `msiexec` returns 0 and `python.exe` is found. -/
  | installOk
  /-- `msiexec` returns non-zero. -/
  | installFailedExit
  /-- the install step raises. -/
  | installRaised
  deriving DecidableEq, Repr

/-- Result of `_install_msi_python` for the artifact lifecycle. -/
structure MsiResult where
  success : Bool
  msiDeleted : Bool
  deriving DecidableEq, Repr

/-- `PythonInstaller._install_msi_python`: the `finally` that unlinks the
temporary MSI belongs to the second `try` (the install), so download
failures return before it runs and leave the (possibly empty) temp file;
every install-phase exit deletes it. -/
def install_msi_cleanup : MsiPhase → MsiResult
  | MsiPhase.downloadHTTP404 => ⟨false, false⟩
  | MsiPhase.downloadFailed => ⟨false, false⟩
  | MsiPhase.installOk => ⟨true, true⟩
  | MsiPhase.installFailedExit => ⟨false, true⟩
  | MsiPhase.installRaised => ⟨false, true⟩

/-! ## Execution adapter: stream wiring of `run_script`
(`environment_manager.py`, lines 649–674) -/

/-- `EnvironmentManager._check_interactive_input`'s test on the decoded
script text (line 721):
`'raw_input' in content or ('input(' in content and 'input(' not in content.replace('raw_input', ''))`. -/
def script_has_input (content : List Char) : Bool :=
  containsSub "raw_input".data content ||
  (containsSub "input(".data content &&
    !containsSub "input(".data (pyReplace "raw_input".data [] content))

/-- How `run_script` sets up the child's standard streams. -/
inductive StreamWiring
  /-- `kwargs['stdin'/'stdout'/'stderr'] = sys.stdin/sys.stdout/sys.stderr`:
  explicitly wired to the parent's streams. -/
  | sysStreams
  /-- no explicit stream arguments; only `encoding`/`errors` may be set. -/
  | encodingOnly
  deriving DecidableEq, Repr

/-- The stream-wiring decision of `run_script` (lines 658–669): a log file
forces the (redirected) `sys` streams; otherwise the interactive-input scan
decides between explicit passthrough and the default branch. -/
def run_script_streams (logFile : Bool) (content : List Char) : StreamWiring :=
  if logFile then StreamWiring.sysStreams
  else if script_has_input content then StreamWiring.sysStreams
  else StreamWiring.encodingOnly

/-! ## Helper lemmas on the string primitives -/

theorem takeWhileAppendAll {p : Char → Bool} :
    ∀ {a : List Char} (b : List Char), (∀ c ∈ a, p c = true) →
      (a ++ b).takeWhile p = a ++ b.takeWhile p
  | [], _, _ => rfl
  | c :: a, b, h => by
    have hc : p c = true := h c (List.mem_cons_self c a)
    simp only [List.cons_append, List.takeWhile_cons, hc, if_true]
    rw [takeWhileAppendAll b (fun x hx => h x (List.mem_cons_of_mem _ hx))]

theorem dropWhileAppendAll {p : Char → Bool} :
    ∀ {a : List Char} (b : List Char), (∀ c ∈ a, p c = true) →
      (a ++ b).dropWhile p = b.dropWhile p
  | [], _, _ => rfl
  | c :: a, b, h => by
    have hc : p c = true := h c (List.mem_cons_self c a)
    simp only [List.cons_append, List.dropWhile_cons, hc, if_true]
    exact dropWhileAppendAll b (fun x hx => h x (List.mem_cons_of_mem _ hx))

theorem dropWhileAppendOfNil {p : Char → Bool} :
    ∀ {a : List Char} (b : List Char), a.dropWhile p = [] →
      (a ++ b).dropWhile p = b.dropWhile p
  | [], _, _ => rfl
  | c :: a, b, h => by
    cases hc : p c with
    | true =>
      simp only [List.dropWhile_cons, hc, if_true] at h
      simp only [List.cons_append, List.dropWhile_cons, hc, if_true]
      exact dropWhileAppendOfNil b h
    | false =>
      rw [List.dropWhile_cons, hc] at h
      simp at h

theorem dropWhileAppendOfNeNil {p : Char → Bool} :
    ∀ {a : List Char} (b : List Char), a.dropWhile p ≠ [] →
      (a ++ b).dropWhile p = a.dropWhile p ++ b
  | [], _, h => absurd rfl h
  | c :: a, b, h => by
    cases hc : p c with
    | true =>
      simp only [List.dropWhile_cons, hc, if_true] at h
      simp only [List.cons_append, List.dropWhile_cons, hc, if_true]
      exact dropWhileAppendOfNeNil b h
    | false =>
      simp [List.cons_append, List.dropWhile_cons, hc]

theorem dropWhileHeadFalse {p : Char → Bool} :
    ∀ {l : List Char} {c : Char} {cs : List Char}, l.dropWhile p = c :: cs → p c = false
  | [], _, _, h => by simp [List.dropWhile] at h
  | a :: l, c, cs, h => by
    cases ha : p a with
    | true =>
      simp only [List.dropWhile_cons, ha, if_true] at h
      exact dropWhileHeadFalse h
    | false =>
      simp only [List.dropWhile_cons, ha, Bool.false_eq_true, if_false] at h
      injection h with h1 _
      rw [← h1]
      exact ha

theorem dropRightWhileCons {p : Char → Bool} {c : Char} (cs : List Char)
    (hc : p c = false) : dropRightWhile p (c :: cs) = c :: dropRightWhile p cs := by
  unfold dropRightWhile
  rw [List.reverse_cons]
  by_cases h : cs.reverse.dropWhile p = []
  · rw [dropWhileAppendOfNil _ h, h]
    simp [List.dropWhile, hc]
  · rw [dropWhileAppendOfNeNil _ h]
    simp

theorem pyStripHead {l : List Char} {c : Char} {cs : List Char}
    (h : l.dropWhile isPySpace = c :: cs) :
    pyStrip l = c :: dropRightWhile isPySpace cs := by
  have hc : isPySpace c = false := dropWhileHeadFalse h
  unfold pyStrip
  rw [h, dropRightWhileCons cs hc]

theorem pyStripConsOfCons {l : List Char} {c : Char} {cs : List Char}
    (h : pyStrip l = c :: cs) : ∃ es, l.dropWhile isPySpace = c :: es := by
  unfold pyStrip at h
  revert h
  cases hq : l.dropWhile isPySpace with
  | nil =>
    intro h
    simp [dropRightWhile] at h
  | cons e es =>
    intro h
    rw [dropRightWhileCons es (dropWhileHeadFalse hq)] at h
    injection h with h1 _
    exact ⟨es, by rw [h1]⟩

theorem singletonIsPrefixOf {c : Char} :
    ∀ {l : List Char}, (pyStartsWith [c] l = true) → ∃ w, l = c :: w
  | [], h => by simp [pyStartsWith] at h
  | b :: bs, h => by
    simp only [pyStartsWith, Bool.and_eq_true, beq_iff_eq] at h
    exact ⟨bs, by rw [h.1]⟩

theorem isPrefixOfConsNe {c b : Char} (xs ys : List Char) (h : (c == b) = false) :
    pyStartsWith (c :: xs) (b :: ys) = false := by
  simp only [pyStartsWith, h, Bool.false_and]

/-! ### `pySplitDot` structure lemmas -/

theorem pySplitDot_ne_nil (l : List Char) : pySplitDot l ≠ [] := by
  cases l with
  | nil => simp [pySplitDot]
  | cons c rest =>
    by_cases hc : c = '.'
    · simp [pySplitDot, hc]
    · cases h : pySplitDot rest with
      | nil => simp [pySplitDot, hc, h]
      | cons p ps => simp [pySplitDot, hc, h]

theorem pySplitDot_head_no_dot :
    ∀ (l : List Char) (p : List Char) (ps : List (List Char)),
      pySplitDot l = p :: ps → '.' ∉ p
  | [], p, ps, h => by
    simp only [pySplitDot] at h
    injection h with h1 _
    subst h1; simp
  | c :: rest, p, ps, h => by
    by_cases hc : c = '.'
    · simp only [pySplitDot, if_pos hc] at h
      injection h with h1 _
      subst h1; simp
    · simp only [pySplitDot, if_neg hc] at h
      cases hr : pySplitDot rest with
      | nil => exact absurd hr (pySplitDot_ne_nil rest)
      | cons q qs =>
        rw [hr] at h
        injection h with h1 _
        subst h1
        have ih := pySplitDot_head_no_dot rest q qs hr
        simp only [List.mem_cons, not_or]
        exact ⟨fun hd => hc hd.symm, ih⟩

theorem pySplitDot_cons_decomp :
    ∀ (l : List Char) (p q : List Char) (qs : List (List Char)),
      pySplitDot l = p :: q :: qs → ∃ t, l = p ++ '.' :: t ∧ pySplitDot t = q :: qs
  | [], p, q, qs, h => by
    simp only [pySplitDot] at h
    injection h with h1 h2
    simp at h2
  | c :: rest, p, q, qs, h => by
    by_cases hc : c = '.'
    · simp only [pySplitDot, if_pos hc] at h
      injection h with h1 h2
      subst h1
      exact ⟨rest, by simp [hc], h2⟩
    · simp only [pySplitDot, if_neg hc] at h
      cases hr : pySplitDot rest with
      | nil => exact absurd hr (pySplitDot_ne_nil rest)
      | cons r rs =>
        rw [hr] at h
        injection h with h1 h2
        subst h1
        obtain ⟨t, ht, hsplit⟩ :=
          pySplitDot_cons_decomp rest r q qs (by rw [hr, h2])
        exact ⟨t, by rw [ht, List.cons_append], hsplit⟩

theorem pySplitDot_no_dot : ∀ (l : List Char), '.' ∉ l → pySplitDot l = [l]
  | [], _ => rfl
  | c :: rest, h => by
    have hc : ¬ c = '.' := by
      intro hc; exact h (by rw [hc]; exact List.mem_cons_self _ _)
    have hr : '.' ∉ rest := fun hm => h (List.mem_cons_of_mem _ hm)
    simp only [pySplitDot, if_neg hc, pySplitDot_no_dot rest hr]

theorem pySplitDot_append (p0 p1 : List Char) (h0 : '.' ∉ p0) (h1 : '.' ∉ p1) :
    pySplitDot (p0 ++ '.' :: p1) = [p0, p1] := by
  induction p0 with
  | nil =>
    simp [pySplitDot, pySplitDot_no_dot p1 h1]
  | cons c p0t ih =>
    have hc : ¬ c = '.' := by
      intro hc; exact h0 (by rw [hc]; exact List.mem_cons_self _ _)
    have h0t : '.' ∉ p0t := fun hm => h0 (List.mem_cons_of_mem _ hm)
    simp only [List.cons_append, pySplitDot, if_neg hc, List.append_eq, ih h0t]

/-! ### `pyLower` structure lemmas -/

theorem pyLower_append (a b : List Char) : pyLower (a ++ b) = pyLower a ++ pyLower b := by
  simp [pyLower]

theorem pyLowerChar_dot : pyLowerChar '.' = '.' := rfl

/-! ### The `startswith('3')` branch of `normalize_version` is idempotent -/

/-- If the lower-cased input strips to something starting with `'3'` and it
splits into at least two dot-parts, then `normalize_version` of
`parts[0] ++ '.' ++ parts[1]` is that string itself. -/
theorem normalize_version_dotted (version p0 p1 : List Char) (rest : List (List Char))
    (hsplit : pySplitDot version = p0 :: p1 :: rest)
    (h3 : pyStartsWith "3".data (pyStrip (pyLower version)) = true) :
    normalize_version (p0 ++ '.' :: p1) = p0 ++ '.' :: p1 := by
  -- structure of the input
  obtain ⟨t, hvt, hsplit2⟩ := pySplitDot_cons_decomp version p0 p1 rest hsplit
  have hp0 : '.' ∉ p0 := pySplitDot_head_no_dot version p0 (p1 :: rest) hsplit
  have hp1 : '.' ∉ p1 := pySplitDot_head_no_dot t p1 rest hsplit2
  -- the first non-space character of (pyLower p0) is '3'
  obtain ⟨w, hw⟩ := singletonIsPrefixOf h3
  obtain ⟨es, hes⟩ := pyStripConsOfCons hw
  have hlow : pyLower version = pyLower p0 ++ '.' :: pyLower t := by
    rw [hvt, pyLower_append]
    rfl
  have hp0head : ∃ es2, (pyLower p0).dropWhile isPySpace = '3' :: es2 := by
    rw [hlow] at hes
    cases hq : (pyLower p0).dropWhile isPySpace with
    | nil =>
      rw [dropWhileAppendOfNil _ hq] at hes
      have : isPySpace '.' = false := rfl
      rw [List.dropWhile_cons, this] at hes
      simp at hes
    | cons e es2 =>
      rw [dropWhileAppendOfNeNil _ (by rw [hq]; simp)] at hes
      rw [hq] at hes
      injection hes with h1 _
      exact ⟨es2, by rw [h1]⟩
  obtain ⟨es2, hes2⟩ := hp0head
  -- hence pyStrip (pyLower (p0 ++ '.' :: p1)) starts with '3'
  have hlow2 : pyLower (p0 ++ '.' :: p1) = pyLower p0 ++ '.' :: pyLower p1 := by
    rw [pyLower_append]
    rfl
  have hdrop2 : (pyLower (p0 ++ '.' :: p1)).dropWhile isPySpace =
      '3' :: (es2 ++ '.' :: pyLower p1) := by
    rw [hlow2, dropWhileAppendOfNeNil _ (by rw [hes2]; simp), hes2]
    simp
  have hstrip2 : pyStrip (pyLower (p0 ++ '.' :: p1)) =
      '3' :: dropRightWhile isPySpace (es2 ++ '.' :: pyLower p1) :=
    pyStripHead hdrop2
  -- evaluate normalize_version on the output
  have hpp : pyStartsWith "pypy".data ('3' :: dropRightWhile isPySpace (es2 ++ '.' :: pyLower p1)) = false :=
    isPrefixOfConsNe _ _ (by decide)
  have hjy : pyStartsWith "jython".data ('3' :: dropRightWhile isPySpace (es2 ++ '.' :: pyLower p1)) = false :=
    isPrefixOfConsNe _ _ (by decide)
  have h2p : pyStartsWith "2".data ('3' :: dropRightWhile isPySpace (es2 ++ '.' :: pyLower p1)) = false :=
    isPrefixOfConsNe _ _ (by decide)
  have h3p : pyStartsWith "3".data ('3' :: dropRightWhile isPySpace (es2 ++ '.' :: pyLower p1)) = true := by
    simp [pyStartsWith]
  simp only [normalize_version]
  rw [hstrip2, hpp, hjy, h2p, h3p]
  simp only [Bool.false_eq_true, if_false, if_true]
  unfold normalize3
  rw [pySplitDot_append p0 p1 hp0 hp1]

theorem normalizePypy_mem (v : List Char) : normalizePypy v ∈ normalizePypyKeys := by
  cases hf : findPypyKey (v.filter (fun c => c != ' ')) with
  | some k =>
    have : normalizePypy v = k := by simp only [normalizePypy, hf]
    rw [this]
    exact List.mem_of_find?_eq_some hf
  | none =>
    simp only [normalizePypy, hf]
    split
    · decide
    · split
      · decide
      · split
        · decide
        · split
          · decide
          · decide

theorem normalize_fixed_keys : ∀ k ∈ normalizePypyKeys, normalize_version k = k := by
  decide

theorem normalize_version_cases (version : List Char) :
    normalize_version version ∈ normalizePypyKeys ∨
    normalize_version version = "jython2.7".data ∨
    normalize_version version = "2.7".data ∨
    normalize_version version = "3.11".data ∨
    ∃ p0 p1 rest, pySplitDot version = p0 :: p1 :: rest ∧
      pyStartsWith "3".data (pyStrip (pyLower version)) = true ∧
      normalize_version version = p0 ++ '.' :: p1 := by
  by_cases hpp : pyStartsWith "pypy".data (pyStrip (pyLower version)) = true
  · left
    have h : normalize_version version = normalizePypy (pyStrip (pyLower version)) := by
      simp [normalize_version, hpp]
    rw [h]
    exact normalizePypy_mem _
  · by_cases hjy : pyStartsWith "jython".data (pyStrip (pyLower version)) = true
    · right; left
      simp [normalize_version, hpp, hjy]
    · by_cases h2 : pyStartsWith "2".data (pyStrip (pyLower version)) = true
      · right; right; left
        simp [normalize_version, hpp, hjy, h2]
      · by_cases h3 : pyStartsWith "3".data (pyStrip (pyLower version)) = true
        · cases hs : pySplitDot version with
          | nil => exact absurd hs (pySplitDot_ne_nil version)
          | cons p0 ps =>
            cases ps with
            | nil =>
              right; right; right; left
              simp [normalize_version, hpp, hjy, h2, h3, normalize3, hs]
            | cons p1 rest =>
              right; right; right; right
              refine ⟨p0, p1, rest, rfl, h3, ?_⟩
              simp [normalize_version, hpp, hjy, h2, h3, normalize3, hs]
        · right; right; right; left
          simp [normalize_version, hpp, hjy, h2, h3]

/-- C6: version normalization is idempotent
(`normalize_version(normalize_version(v)) == normalize_version(v)` for every
input string), and it is total and deterministic: every input maps to exactly
one result. -/
theorem c6_normalize_idempotent_total (v : List Char) :
    normalize_version (normalize_version v) = normalize_version v ∧
    ∃! w, normalize_version v = w := by
  constructor
  · rcases normalize_version_cases v with hmem | h | h | h | ⟨p0, p1, rest, hs, h3, he⟩
    · exact normalize_fixed_keys _ hmem
    · rw [h]; decide
    · rw [h]; decide
    · rw [h]; decide
    · rw [he]
      exact normalize_version_dotted v p0 p1 rest hs h3
  · exact ⟨normalize_version v, rfl, fun y hy => hy.symm⟩

/-! ## C4: shebang version detection -/

/-- The concrete prefix `#!/usr/bin/env python` of a shebang line reduces the
matcher to the version-group parse of whatever follows. -/
theorem shebangEnvMatch_reduce (s : List Char) :
    shebangEnvMatch ('#' :: '!' :: '/' :: 'u' :: 's' :: 'r' :: '/' :: 'b' :: 'i' :: 'n' ::
      '/' :: 'e' :: 'n' :: 'v' :: ' ' :: 'p' :: 'y' :: 't' :: 'h' :: 'o' :: 'n' :: s) =
      some (parseVersionNum s) := by
  rfl

theorem shebangEnvMatch_reduce_data (s : List Char) :
    shebangEnvMatch ("#!/usr/bin/env python".data ++ s) = some (parseVersionNum s) := by
  have h : "#!/usr/bin/env python".data ++ s =
      '#' :: '!' :: '/' :: 'u' :: 's' :: 'r' :: '/' :: 'b' :: 'i' :: 'n' ::
      '/' :: 'e' :: 'n' :: 'v' :: ' ' :: 'p' :: 'y' :: 't' :: 'h' :: 'o' :: 'n' :: s := rfl
  rw [h, shebangEnvMatch_reduce]

theorem parseVersionNum_digits {a b tail : List Char}
    (ha : ∀ c ∈ a, isPyDigit c = true) (ha0 : a ≠ [])
    (hb : ∀ c ∈ b, isPyDigit c = true) (hb0 : b ≠ [])
    (htail : tail.takeWhile isPyDigit = []) :
    parseVersionNum (a ++ '.' :: (b ++ tail)) = some (a ++ '.' :: b) := by
  have hdot : isPyDigit '.' = false := rfl
  have h1 : (a ++ '.' :: (b ++ tail)).takeWhile isPyDigit = a := by
    rw [takeWhileAppendAll _ ha, List.takeWhile_cons, hdot]
    simp
  have h2 : (a ++ '.' :: (b ++ tail)).dropWhile isPyDigit = '.' :: (b ++ tail) := by
    rw [dropWhileAppendAll _ ha, List.dropWhile_cons, hdot]
    simp
  have h3 : (b ++ tail).takeWhile isPyDigit = b := by
    rw [takeWhileAppendAll _ hb, htail]
    simp
  simp only [parseVersionNum, h1, h2, h3]
  rw [if_neg (by simpa using ha0), if_neg (by simpa using hb0)]

/-- Evaluation of `_check_shebang` once the env-form shebang matched with a
version group. -/
theorem check_shebang_of_env {line v : List Char}
    (h : shebangEnvMatch line = some (some v)) :
    check_shebang line =
      (if pyStartsWith "2".data v then some "2.7".data
       else if pyStartsWith "3".data v then
         (if v.drop 1 = [] then some "3.11".data else some v)
       else none) := by
  unfold check_shebang
  rw [h]
  rfl

/-- C4 (amended): for every script whose first line is
`#!/usr/bin/env pythonNN.MM` with `NN`, `MM` non-empty digit strings and
leading digit of `NN` equal to `2` or `3`, `detect_version` reports method
`shebang`; when `NN` starts with `3` the version is returned exactly as
written, but every `NN` starting with `2` — not only the bare legacy
major — is rewritten to `2.7`. -/
theorem c4_shebang_version (a b tail : List Char) (rest : List (List Char))
    (ha : ∀ c ∈ a, isPyDigit c = true) (hb : ∀ c ∈ b, isPyDigit c = true)
    (hb0 : b ≠ [])
    (htail : tail.takeWhile isPyDigit = [])
    (hmaj : a.head? = some '2' ∨ a.head? = some '3') :
    detect_version (("#!/usr/bin/env python".data ++ (a ++ '.' :: (b ++ tail))) :: rest) =
      ((if a.head? = some '2' then "2.7".data else a ++ '.' :: b), "shebang".data) := by
  have ha0 : a ≠ [] := by
    rcases hmaj with h | h <;> (intro hnil; rw [hnil] at h; simp at h)
  have hparse := parseVersionNum_digits ha ha0 hb hb0 htail
  have henv : shebangEnvMatch ("#!/usr/bin/env python".data ++ (a ++ '.' :: (b ++ tail))) =
      some (some (a ++ '.' :: b)) := by
    rw [shebangEnvMatch_reduce_data, hparse]
  have hsb := check_shebang_of_env henv
  rcases hmaj with h | h
  · obtain ⟨a2, rfl⟩ : ∃ a2, a = '2' :: a2 := by
      cases a with
      | nil => simp at h
      | cons x xs => exact ⟨xs, by injection h with hx; rw [hx]⟩
    have h2t : pyStartsWith "2".data (('2' :: a2) ++ '.' :: b) = true := by
      simp [List.cons_append, pyStartsWith]
    rw [h2t] at hsb
    simp only [if_true] at hsb
    simp only [List.cons_append, List.nil_append] at hsb
    simp [detect_version, shebangOfLines, hsb]
  · obtain ⟨a2, rfl⟩ : ∃ a2, a = '3' :: a2 := by
      cases a with
      | nil => simp at h
      | cons x xs => exact ⟨xs, by injection h with hx; rw [hx]⟩
    have h2f : pyStartsWith "2".data (('3' :: a2) ++ '.' :: b) = false := by
      simp [List.cons_append]
      exact isPrefixOfConsNe _ _ (by decide)
    have h3t : pyStartsWith "3".data (('3' :: a2) ++ '.' :: b) = true := by
      simp [List.cons_append, pyStartsWith]
    have hdrop : (('3' :: a2) ++ '.' :: b).drop 1 = a2 ++ '.' :: b := by
      simp [List.cons_append]
    rw [h2f, h3t, hdrop] at hsb
    simp only [Bool.false_eq_true, if_false, if_true] at hsb
    rw [if_neg (by simp)] at hsb
    have hhead : (('3' :: a2).head? = some '2') = False := by
      simp
    simp only [List.cons_append, List.nil_append] at hsb
    simp [detect_version, shebangOfLines, hsb, hhead]

/-- C4 (counterexample): the claim says only a *bare* legacy major is
rewritten, so `#!/usr/bin/env python2.6` should yield version `2.6`; the
code rewrites every major-2 version and returns `2.7` instead. -/
theorem c4_counterexample :
    detect_version ["#!/usr/bin/env python2.6\n".data] = ("2.7".data, "shebang".data) ∧
    ("2.7".data : List Char) ≠ "2.6".data := by
  constructor
  · decide
  · decide

/-- Witness for `c4_shebang_version` at `#!/usr/bin/env python3.9`. -/
theorem c4_shebang_version_witness :
    detect_version (("#!/usr/bin/env python".data ++ ("3".data ++ '.' :: ("9".data ++ "\n".data))) :: []) =
      ((if ("3".data).head? = some '2' then "2.7".data else "3".data ++ '.' :: "9".data), "shebang".data) :=
  c4_shebang_version "3".data "9".data "\n".data []
    (by decide) (by decide) (by decide) (by decide) (Or.inr (by decide))

/-- C5: a script with no shebang version and no version comment in its first
20 lines is detected via `syntax` with the legacy version exactly when at
least two of the nine legacy syntax markers match the joined text; with
fewer than two, the default is returned. -/
theorem c5_syntax_markers (lines : List (List Char))
    (hsb : shebangOfLines lines = none)
    (hcm : (lines.take 20).findSome? check_version_comment = none) :
    (2 ≤ python2_matches lines.flatten →
      detect_version lines = ("2.7".data, "syntax".data)) ∧
    (python2_matches lines.flatten < 2 →
      detect_version lines = ("3.11".data, "default".data)) := by
  unfold detect_version check_syntax
  rw [hsb, hcm]
  constructor
  · intro h
    rw [if_pos h]
  · intro h
    rw [if_neg (by omega)]

/-- Witness for `c5_syntax_markers`: two markers (`xrange(`, `.iteritems()`)
trigger the `syntax` method. -/
theorem c5_syntax_markers_witness :
    detect_version ["x = xrange(3)\n".data, "d.iteritems()\n".data] = ("2.7".data, "syntax".data) :=
  (c5_syntax_markers ["x = xrange(3)\n".data, "d.iteritems()\n".data]
    (by decide) (by decide)).1 (by decide)

/-- C1: with the environment present, its probe output containing the
expected `major.minor`, and `force_recreate` false, `create_environment`
returns the directory with no build and no destroy; and two successive calls
with identical arguments starting from an absent directory (with the fresh
build probing correctly — no intervening mismatch) perform exactly one build,
the second call being a pure reuse. -/
theorem c1_reuse_single_build
    (w : EnvWorld) (st st0 : EnvState) (pv out exp out2 p : List Char) (q : Bool)
    (hj : is_alternative_interpreter pv ≠ some AltKind.jython)
    (hex : st.envExists = true) (hexe : st.exeExists = true) (hpr : st.probe = some out)
    (hexp : expectedMajorMinor pv = some exp) (hmatch : containsSub exp out = true)
    (h0 : st0.envExists = false)
    (hinst : w.installResult = Except.ok (some p))
    (hver : (match w.installedProbe with
             | some o => containsSub (expectedOrSelf pv) o
             | none => true) = true)
    (hbuild : w.buildOk = true)
    (hbexe : w.builtExeExists = true) (hbpr : w.builtProbe = some out2)
    (hmatch2 : containsSub exp out2 = true) :
    create_environment w st pv false q =
      ⟨Except.ok (envNameFor pv), 0, 0, false, st⟩ ∧
    create_environment w st0 pv false q =
      ⟨Except.ok (envNameFor pv), 1, 0, false, ⟨true, true, some out2⟩⟩ ∧
    create_environment w ⟨true, true, some out2⟩ pv false q =
      ⟨Except.ok (envNameFor pv), 0, 0, false, ⟨true, true, some out2⟩⟩ := by
  refine ⟨?_, ?_, ?_⟩
  · simp [create_environment, hj, hex, hexe, hpr, hexp, hmatch]
  · have hm : (match w.installedProbe with
               | some o => !(containsSub (expectedOrSelf pv) o)
               | none => false) = false := by
      cases hio : w.installedProbe with
      | some o =>
        rw [hio] at hver
        simp only at hver
        simp [hver]
      | none => rfl
    simp [create_environment, hj, h0, buildPhase, hinst, hm, hbuild, hbexe, hbpr]
  · simp [create_environment, hj, hexp, hmatch2]

/-- Witness for `c1_reuse_single_build` on concrete data. -/
theorem c1_reuse_single_build_witness :
    create_environment ⟨Except.ok (some "p".data), none, true, true, some "Python 3.11.5".data⟩
        ⟨true, true, some "Python 3.11.5".data⟩ "3.11".data false false =
      ⟨Except.ok (envNameFor "3.11".data), 0, 0, false, ⟨true, true, some "Python 3.11.5".data⟩⟩ ∧
    create_environment ⟨Except.ok (some "p".data), none, true, true, some "Python 3.11.5".data⟩
        ⟨false, false, none⟩ "3.11".data false false =
      ⟨Except.ok (envNameFor "3.11".data), 1, 0, false, ⟨true, true, some "Python 3.11.5".data⟩⟩ ∧
    create_environment ⟨Except.ok (some "p".data), none, true, true, some "Python 3.11.5".data⟩
        ⟨true, true, some "Python 3.11.5".data⟩ "3.11".data false false =
      ⟨Except.ok (envNameFor "3.11".data), 0, 0, false, ⟨true, true, some "Python 3.11.5".data⟩⟩ :=
  c1_reuse_single_build
    ⟨Except.ok (some "p".data), none, true, true, some "Python 3.11.5".data⟩
    ⟨true, true, some "Python 3.11.5".data⟩ ⟨false, false, none⟩
    "3.11".data "Python 3.11.5".data "3.11".data "Python 3.11.5".data "p".data false
    (by decide) (by decide) (by decide) (by decide) (by decide) (by decide)
    (by decide) (by decide) (by decide) (by decide) (by decide) (by decide)
    (by decide)

/-- The world and stale environment used to exhibit the `quiet`-mode bug:
the existing environment's interpreter reports Python 2.7.18 while 3.11 is
expected, and every install/build effect succeeds. -/
def c2World : EnvWorld :=
  ⟨Except.ok (some "p".data), none, true, true, some "Python 3.11.5".data⟩

/-- Stale environment state: present, executable present, probe reporting the
wrong version. -/
def c2Stale : EnvState :=
  ⟨true, true, some "Python 2.7.18".data⟩

/-- C2 (code bug): with `quiet=True` the mismatching environment is *not*
destroyed — `shutil.rmtree` is guarded by `force_recreate and not quiet` —
yet the rebuild proceeds into the stale directory; with `quiet=False` the
same call destroys it exactly once, as the spec requires. -/
theorem c2_quiet_mode_keeps_stale_env :
    containsSub "3.11".data "Python 2.7.18".data = false ∧
    (create_environment c2World c2Stale "3.11".data false true).destroys = 0 ∧
    (create_environment c2World c2Stale "3.11".data false true).builds = 1 ∧
    (create_environment c2World c2Stale "3.11".data false true).res =
      Except.ok "python-3-11".data ∧
    (create_environment c2World c2Stale "3.11".data false false).destroys = 1 ∧
    (create_environment c2World c2Stale "3.11".data false false).builds = 1 := by
  refine ⟨by decide, by decide, by decide, by decide, by decide, by decide⟩

/-! ## Trace lemmas for the installed check and the offline chain -/

/-- For non-Jython specs the installed check produces no effect beyond at
most one quick version probe. -/
theorem python_installed_trace (w : IWorld) (version : List Char)
    (hj : is_alternative_interpreter version ≠ some AltKind.jython) :
    (python_installed w version).2 = [] ∨
    (python_installed w version).2 = [Act.versionProbe] := by
  cases halt : is_alternative_interpreter version with
  | some k =>
    cases k with
    | jython => exact absurd halt hj
    | pypy =>
      simp only [python_installed, get_python_path, halt]
      cases w.pypyPath with
      | none => simp
      | some p =>
        by_cases hjar : ".jar".data.isSuffixOf p = true
        · simp [hjar]
        · cases w.probeOut with
          | none => simp [hjar]
          | some o => simp [hjar]
  | none =>
    simp only [python_installed, get_python_path, halt]
    cases w.stdPath with
    | none => simp
    | some p =>
      by_cases hjar : ".jar".data.isSuffixOf p = true
      · simp [hjar]
      · cases w.probeOut with
        | none => simp [hjar]
        | some o => simp [hjar]

/-- A world in which the Jython jar is absent, Java is available, the cache
is empty and the download fails; nothing else is available either. -/
def offlineJythonWorld : IWorld :=
  ⟨Plat.linux, false, false, none, none, none, true, false, false, false,
   none, none, false, false, none, false, false, false, false, none⟩

/-- C7 (counterexample): the installed check for the JAR family delegates to
`install_jython`, which attempts the network download when the jar is
absent — `python_installed('jython')` performs a download. -/
theorem c7_counterexample :
    Act.download ∈ (python_installed offlineJythonWorld "jython".data).2 := by
  decide

/-- C7 (amended): for every non-Jython spec the installed check performs only
filesystem tests plus at most one quick version probe (no download, no
network); for the Jython family no download happens provided the jar is
already present. -/
theorem c7_installed_check_local (w : IWorld) (version : List Char) :
    (is_alternative_interpreter version ≠ some AltKind.jython →
      (python_installed w version).2 = [] ∨
      (python_installed w version).2 = [Act.versionProbe]) ∧
    (w.jarExists = true → Act.download ∉ (python_installed w version).2) := by
  constructor
  · exact python_installed_trace w version
  · intro hjar
    by_cases hj : is_alternative_interpreter version = some AltKind.jython
    · simp only [python_installed, hj]
      cases hja : w.javaAvail with
      | false => simp [install_jython, hja]
      | true => simp [install_jython, hja, hjar]
    · rcases python_installed_trace w version hj with h | h <;> rw [h] <;> decide

/-- Witness for `c7_installed_check_local`. -/
theorem c7_installed_check_local_witness :
    (python_installed offlineJythonWorld "3.11".data).2 = [] ∨
    (python_installed offlineJythonWorld "3.11".data).2 = [Act.versionProbe] :=
  (c7_installed_check_local offlineJythonWorld "3.11".data).1 (by decide)

theorem installStepDownload_offline (w : IWorld) (version : List Char) (acc : List Act) :
    installStepDownload w version true acc = (Except.error InstErr.offlineNotFound, acc) := rfl

/-- In offline mode the pyenv step either returns a pyenv-installed path
after a single query, or falls through to the offline error, never running
`pyenv install` or a download. -/
theorem installStepPyenv_offline (w : IWorld) (version : List Char) (u : Bool) (acc : List Act) :
    (∃ p, w.pyenvPath = some p ∧
      installStepPyenv w version u true acc = (Except.ok p, acc ++ [Act.pyenvQuery]) ∧
      (u && w.pyenvAvailable && (normalize_for_pyenv version).isSome && w.pyenvInstalled) = true) ∨
    installStepPyenv w version u true acc = (Except.error InstErr.offlineNotFound, acc) ∨
    installStepPyenv w version u true acc = (Except.error InstErr.offlineNotFound, acc ++ [Act.pyenvQuery]) := by
  unfold installStepPyenv
  cases u with
  | false =>
    right; left
    simp [installStepDownload]
  | true =>
    cases hav : w.pyenvAvailable with
    | false =>
      right; left
      simp [hav, installStepDownload]
    | true =>
      cases hn : normalize_for_pyenv version with
      | none =>
        right; left
        simp [hav, hn, installStepDownload]
      | some pv2 =>
        cases hi : w.pyenvInstalled with
        | false =>
          right; right
          simp [hav, hn, hi, installStepDownload]
        | true =>
          cases hp : w.pyenvPath with
          | none =>
            right; right
            simp [hav, hn, hi, hp, installStepDownload]
          | some p =>
            left
            exact ⟨p, rfl, by simp [hav, hn, hi, hp], by simp [hav, hn, hi]⟩

theorem noNet_extend {acc t : List Act}
    (h : Act.download ∉ acc ∧ Act.pyenvInstall ∉ acc)
    (ht : Act.download ∉ t ∧ Act.pyenvInstall ∉ t) :
    Act.download ∉ acc ++ t ∧ Act.pyenvInstall ∉ acc ++ t := by
  constructor <;> rw [List.mem_append] <;> rintro (hc | hc)
  · exact h.1 hc
  · exact ht.1 hc
  · exact h.2 hc
  · exact ht.2 hc

theorem installStepPyenv_offline_noNet (w : IWorld) (version : List Char) (u : Bool)
    (acc : List Act) (hacc : Act.download ∉ acc ∧ Act.pyenvInstall ∉ acc) :
    Act.download ∉ (installStepPyenv w version u true acc).2 ∧
    Act.pyenvInstall ∉ (installStepPyenv w version u true acc).2 := by
  rcases installStepPyenv_offline w version u acc with ⟨p, _, heq, _⟩ | heq | heq <;> rw [heq]
  · exact noNet_extend hacc (by decide)
  · exact hacc
  · exact noNet_extend hacc (by decide)

theorem installStepSystem_offline_noNet (w : IWorld) (version : List Char) (u : Bool)
    (acc : List Act) (hacc : Act.download ∉ acc ∧ Act.pyenvInstall ∉ acc) :
    Act.download ∉ (installStepSystem w version u true acc).2 ∧
    Act.pyenvInstall ∉ (installStepSystem w version u true acc).2 := by
  unfold installStepSystem find_system_python
  cases hs : pySplitDot version with
  | nil => simpa using hacc
  | cons p0 ps =>
    cases ps with
    | nil => simpa using hacc
    | cons p1 rest =>
      simp only
      cases hsp : w.systemPython with
      | none =>
        exact installStepPyenv_offline_noNet w version u _ (noNet_extend hacc (by decide))
      | some sp =>
        cases hpo : w.sysProbeOut with
        | none =>
          exact installStepPyenv_offline_noNet w version u _
            (noNet_extend (noNet_extend hacc (by decide)) (by decide))
        | some out =>
          cases hexp : expectedMajorMinor version with
          | none =>
            exact installStepPyenv_offline_noNet w version u _
              (noNet_extend (noNet_extend hacc (by decide)) (by decide))
          | some exp =>
            by_cases hco : containsSub exp out = true
            · simp only [hco, if_true]
              exact noNet_extend (noNet_extend hacc (by decide)) (by decide)
            · simp only [hco]
              simp only [Bool.false_eq_true, if_false]
              exact installStepPyenv_offline_noNet w version u _
                (noNet_extend (noNet_extend hacc (by decide)) (by decide))

theorem installStepAlt_offline_noNet (w : IWorld) (version : List Char) (u : Bool)
    (acc : List Act)
    (hj : is_alternative_interpreter version ≠ some AltKind.jython)
    (hacc : Act.download ∉ acc ∧ Act.pyenvInstall ∉ acc) :
    Act.download ∉ (installStepAlt w version u true acc).2 ∧
    Act.pyenvInstall ∉ (installStepAlt w version u true acc).2 := by
  cases halt : is_alternative_interpreter version with
  | some k =>
    cases k with
    | jython => exact absurd halt hj
    | pypy =>
      simp only [installStepAlt, halt, get_python_path]
      cases w.pypyPath with
      | none => simpa using hacc
      | some p => simpa using hacc
  | none =>
    simp only [installStepAlt, halt]
    exact installStepSystem_offline_noNet w version u acc hacc

theorem get_python_path_trace (w : IWorld) (version : List Char)
    (hj : is_alternative_interpreter version ≠ some AltKind.jython) :
    (get_python_path w version).2 = [] := by
  cases halt : is_alternative_interpreter version with
  | some k =>
    cases k with
    | jython => exact absurd halt hj
    | pypy => simp [get_python_path, halt]
  | none => simp [get_python_path, halt]

/-- Exhaustion of the offline chain for a canonical mainstream spec with no
system copy and no pyenv-installed copy yields the offline error. -/
theorem installStepSystem_offline_miss (w : IWorld) (version : List Char) (u : Bool)
    (acc : List Act)
    (hparts : 2 ≤ (pySplitDot version).length)
    (hsys : w.systemPython = none)
    (hmiss : (u && w.pyenvAvailable && (normalize_for_pyenv version).isSome &&
      w.pyenvInstalled && w.pyenvPath.isSome) = false) :
    (installStepSystem w version u true acc).1 = Except.error InstErr.offlineNotFound := by
  unfold installStepSystem find_system_python
  cases hs : pySplitDot version with
  | nil => rw [hs] at hparts; simp at hparts
  | cons p0 ps =>
    cases ps with
    | nil => rw [hs] at hparts; simp at hparts
    | cons p1 rest =>
      simp only [hsys]
      rcases installStepPyenv_offline w version u (acc ++ [Act.whichLookup]) with
        ⟨p, hp, heq, hconj⟩ | heq | heq
      · exfalso
        rw [hconj, hp] at hmiss
        simp at hmiss
      · rw [heq]
      · rw [heq]

/-- C3 (amended): in offline mode the chain performs no download and no
`pyenv install` for CPython and PyPy specs; a PyPy spec with no installed
copy raises the PyPy offline error, and a canonical CPython spec absent from
the registry, the system and pyenv raises the offline-restriction error.
(The Jython family violates the original claim: see the counterexample.) -/
theorem c3_offline_restricted (w : IWorld) (version : List Char) (u : Bool)
    (hj : is_alternative_interpreter version ≠ some AltKind.jython) :
    (Act.download ∉ (install_python w version u true).2 ∧
     Act.pyenvInstall ∉ (install_python w version u true).2) ∧
    (is_alternative_interpreter version = some AltKind.pypy → w.pypyPath = none →
      (install_python w version u true).1 = Except.error InstErr.pypyOffline) ∧
    (is_alternative_interpreter version = none →
      2 ≤ (pySplitDot version).length →
      w.systemPython = none →
      (python_installed w version).1 = false →
      (u && w.pyenvAvailable && (normalize_for_pyenv version).isSome &&
        w.pyenvInstalled && w.pyenvPath.isSome) = false →
      (install_python w version u true).1 = Except.error InstErr.offlineNotFound) := by
  refine ⟨?_, ?_, ?_⟩
  · unfold install_python
    cases hpi : python_installed w version with
    | mk inst t1 =>
      have ht1 : Act.download ∉ t1 ∧ Act.pyenvInstall ∉ t1 := by
        have h := python_installed_trace w version hj
        rw [hpi] at h
        rcases h with h | h <;> simp only at h <;> rw [h]
        · exact ⟨by decide, by decide⟩
        · exact ⟨by decide, by decide⟩
      cases inst with
      | true =>
        cases hgp : get_python_path w version with
        | mk p? t1b =>
          have ht1b : t1b = [] := by
            have h := get_python_path_trace w version hj
            rw [hgp] at h
            simpa using h
          subst ht1b
          cases p? with
          | some p => exact noNet_extend ht1 (by decide)
          | none => exact installStepAlt_offline_noNet w version u _ hj (noNet_extend ht1 (by decide))
      | false => exact installStepAlt_offline_noNet w version u t1 hj ht1
  · intro hpypy hpath
    have hpi : python_installed w version = (false, []) := by
      simp [python_installed, get_python_path, hpypy, hpath]
    have hend : install_python w version u true = (Except.error InstErr.pypyOffline, []) := by
      simp [install_python, hpi, installStepAlt, hpypy, get_python_path, hpath]
    rw [hend]
  · intro hstd hparts hsys hpifalse hmiss
    cases hpi2 : python_installed w version with
    | mk inst t1 =>
      have hif : inst = false := by
        rw [hpi2] at hpifalse
        exact hpifalse
      subst hif
      unfold install_python
      rw [hpi2]
      show (installStepAlt w version u true t1).1 = _
      simp only [installStepAlt, hstd]
      exact installStepSystem_offline_miss w version u t1 hparts hsys hmiss

/-- C3 (counterexample): for the Jython family the installed check itself
delegates to the Jython installer, so `install_python('jython', offline=True)`
attempts the network download before raising the offline error. -/
theorem c3_counterexample :
    Act.download ∈ (install_python offlineJythonWorld "jython".data true true).2 ∧
    (install_python offlineJythonWorld "jython".data true true).1 =
      Except.error InstErr.jythonOffline := by
  refine ⟨by decide, by decide⟩

/-- Witness for `c3_offline_restricted` on a concrete empty world. -/
theorem c3_offline_restricted_witness :
    (Act.download ∉ (install_python offlineJythonWorld "3.11".data true true).2 ∧
     Act.pyenvInstall ∉ (install_python offlineJythonWorld "3.11".data true true).2) ∧
    (install_python offlineJythonWorld "3.11".data true true).1 =
      Except.error InstErr.offlineNotFound :=
  ⟨(c3_offline_restricted offlineJythonWorld "3.11".data true (by decide)).1,
   (c3_offline_restricted offlineJythonWorld "3.11".data true (by decide)).2.2
     (by decide) (by decide) (by decide) (by decide) (by decide)⟩

theorem pyReplaceFuel_of_not_contained (old new : List Char) :
    ∀ (fuel : Nat) (s : List Char), containsSub old s = false →
      pyReplaceFuel old new fuel s = s
  | 0, _, _ => rfl
  | _ + 1, [], _ => rfl
  | fuel + 1, c :: rest, h => by
    rw [containsSub] at h
    rcases Bool.or_eq_false_iff.mp h with ⟨h1, h2⟩
    have hcond : ¬(pyStartsWith old (c :: rest) = true ∧ old ≠ []) := by
      rintro ⟨ha, _⟩
      rw [h1] at ha
      simp at ha
    simp only [pyReplaceFuel, if_neg hcond]
    rw [pyReplaceFuel_of_not_contained old new fuel rest h2]

/-- `str.replace` of a pattern that does not occur is the identity. -/
theorem pyReplace_of_not_contained (old new s : List Char)
    (h : containsSub old s = false) : pyReplace old new s = s :=
  pyReplaceFuel_of_not_contained old new s.length s h

/-- The composite interactive-input test collapses to plain `raw_input`
containment: when `raw_input` is absent, the `replace` is the identity, so
the second conjunct contradicts itself. -/
theorem script_has_input_eq (content : List Char) :
    script_has_input content = containsSub "raw_input".data content := by
  unfold script_has_input
  cases hr : containsSub "raw_input".data content with
  | true => simp
  | false =>
    simp only [Bool.false_or]
    rw [pyReplace_of_not_contained _ _ _ hr]
    cases hi : containsSub "input(".data content <;> simp [hi]

/-- C8 (amended): `run_script`'s scan flags exactly the scripts containing
the legacy `raw_input` pattern; a flagged script run without a log file gets
the child's standard streams explicitly wired to the parent's, and an
unflagged one — even one calling the modern `input(` — falls into the
default capture/encoding branch. -/
theorem c8_stream_wiring (content : List Char) :
    script_has_input content = containsSub "raw_input".data content ∧
    (containsSub "raw_input".data content = true →
      run_script_streams false content = StreamWiring.sysStreams) ∧
    (containsSub "raw_input".data content = false →
      run_script_streams false content = StreamWiring.encodingOnly) := by
  refine ⟨script_has_input_eq content, ?_, ?_⟩
  · intro h
    simp [run_script_streams, script_has_input_eq, h]
  · intro h
    simp [run_script_streams, script_has_input_eq, h]

/-- C8 (counterexample): a script whose only blocking-input call is the
modern `input(` is *not* flagged, so its streams are not explicitly wired —
refuting the claim that both legacy and current patterns trigger
passthrough. -/
theorem c8_counterexample :
    containsSub "input(".data "x = input()\n".data = true ∧
    script_has_input "x = input()\n".data = false ∧
    run_script_streams false "x = input()\n".data = StreamWiring.encodingOnly := by
  refine ⟨by decide, by decide, by decide⟩

/-- Witness for `c8_stream_wiring` on a legacy interactive script. -/
theorem c8_stream_wiring_witness :
    run_script_streams false "name = raw_input()\n".data = StreamWiring.sysStreams :=
  (c8_stream_wiring "name = raw_input()\n".data).2.1 (by decide)

/-- C9 (counterexample): a corrupt zip (`BadZipFile`) makes `_extract_python`
return `False` *without* unlinking the downloaded archive — the artifact is
left behind on this failure path. -/
theorem c9_counterexample :
    (extract_python ArchiveKind.zip ExtractOutcome.badZip).success = false ∧
    (extract_python ArchiveKind.zip ExtractOutcome.badZip).archiveDeleted = false := by
  refine ⟨rfl, rfl⟩

/-- C9 (amended): the archive is deleted exactly on successful extraction —
never on a failure path; only the MSI branch removes its temporary installer
after the install attempt (though not after a failed download). -/
theorem c9_artifact_lifecycle (k : ArchiveKind) (o : ExtractOutcome) (m : MsiPhase) :
    ((extract_python k o).success = true → (extract_python k o).archiveDeleted = true) ∧
    ((extract_python k o).archiveDeleted = true → (extract_python k o).success = true) ∧
    (m ≠ MsiPhase.downloadHTTP404 → m ≠ MsiPhase.downloadFailed →
      (install_msi_cleanup m).msiDeleted = true) := by
  cases k <;> cases o <;> cases m <;> exact ⟨by decide, by decide, by decide⟩

/-- Witness for `c9_artifact_lifecycle`. -/
theorem c9_artifact_lifecycle_witness :
    (extract_python ArchiveKind.zip ExtractOutcome.ok).archiveDeleted = true ∧
    (install_msi_cleanup MsiPhase.installFailedExit).msiDeleted = true :=
  ⟨(c9_artifact_lifecycle ArchiveKind.zip ExtractOutcome.ok MsiPhase.installFailedExit).1 (by decide),
   (c9_artifact_lifecycle ArchiveKind.zip ExtractOutcome.ok MsiPhase.installFailedExit).2.2
     (by decide) (by decide)⟩

/-- The first statement of `install_pypy`'s `try` block —
`version_dir / "pypy_archive" + ext` — raises `TypeError`, which the broad
handler turns into the `None` result with no effect performed. -/
theorem install_pypy_none (w : IWorld) (version : List Char) :
    install_pypy w version = (none, []) := by
  unfold install_pypy
  cases hu : get_pypy_url w version with
  | none => rfl
  | some url => rfl

/-- C10: `install_pypy` returns `None` for every version and install
directory, with no cache lookup, download or extraction performed (the
archive-path expression raises `TypeError` first); consequently resolving a
PyPy version that is not already installed fails with the PyPy install
error. -/
theorem c10_install_pypy_always_none (w : IWorld) (version : List Char) (u : Bool) :
    install_pypy w version = (none, []) ∧
    (is_alternative_interpreter version = some AltKind.pypy →
      (python_installed w version).1 = false →
      (install_python w version u false).1 = Except.error InstErr.pypyInstallFailed) := by
  refine ⟨install_pypy_none w version, ?_⟩
  intro hpypy hpi
  cases hpi2 : python_installed w version with
  | mk inst t1 =>
    have hif : inst = false := by
      rw [hpi2] at hpi
      exact hpi
    subst hif
    unfold install_python
    rw [hpi2]
    show (installStepAlt w version u false t1).1 = _
    simp [installStepAlt, hpypy, install_pypy_none]

/-- Witness for `c10_install_pypy_always_none`. -/
theorem c10_install_pypy_always_none_witness :
    install_pypy offlineJythonWorld "pypy3.11".data = (none, []) ∧
    (install_python offlineJythonWorld "pypy3.11".data true false).1 =
      Except.error InstErr.pypyInstallFailed :=
  ⟨(c10_install_pypy_always_none offlineJythonWorld "pypy3.11".data true).1,
   (c10_install_pypy_always_none offlineJythonWorld "pypy3.11".data true).2
     (by decide) (by decide)⟩
